import Mathlib

/-!
Verification development for the glastobot orchestration core
(src/utils/glasto.py, src/utils/utils.py, src/utils/gui.py).

The Python code is shallowly embedded: the manager / driver state is an
explicit record, every control operation is a pure state transformer,
and the concurrent run is modelled as a fold of events (one event per
atomic action of one thread) over the system state.
-/

/- URL strings. -/
abbrev Url := String

/-! ## Python dict model (string-keyed, insertion ordered) -/

/- `m.get(u)` on a dict represented as an association list. -/
def lookupD (m : List (Url × Bool)) (u : Url) : Option Bool :=
  match m with
  | [] => none
  | (k, v) :: rest => if k = u then some v else lookupD rest u

/- `m[u] = b` on a dict: replace in place or append a new key. -/
def insertD (m : List (Url × Bool)) (u : Url) (b : Bool) : List (Url × Bool) :=
  match m with
  | [] => [(u, b)]
  | (k, v) :: rest => if k = u then (k, b) :: rest else (k, v) :: insertD rest u b

theorem lookupD_insertD (m : List (Url × Bool)) (u k : Url) (b : Bool) :
    lookupD (insertD m k b) u = if k = u then some b else lookupD m u := by
  induction m with
  | nil => simp [insertD, lookupD]
  | cons p rest ih =>
    obtain ⟨k0, v0⟩ := p
    by_cases hk : k0 = k
    · subst hk
      simp only [insertD, if_pos rfl, lookupD]
      by_cases hu : k0 = u <;> simp [hu]
    · simp only [insertD, if_neg hk, lookupD]
      by_cases hu : k0 = u
      · subst hu
        have : ¬ k = k0 := fun h => hk h.symm
        simp [this]
      · simp [hu, ih]

/-! ## Grid Layout Calculator (GlastoManager.set_driver_position)

`grid_width = math.ceil(math.sqrt(len(self.drivers)))` and
`grid_height = math.ceil(len(self.drivers) / grid_width)`, computed here
as exact ceilings over the naturals.  `int(...)` on the nonnegative
float quotients is truncation toward zero, modelled by `pyInt` over ℚ. -/

/- Fueled search for the least `c` with `n ≤ c * c` (kernel-reducible). -/
def ceilSqrtAux (n : Nat) : Nat → Nat → Nat
  | 0, c => c
  | fuel + 1, c => if n ≤ c * c then c else ceilSqrtAux n fuel (c + 1)

/- `math.ceil(math.sqrt(n))`: the least `c` with `n ≤ c * c`. -/
def ceilSqrt (n : Nat) : Nat := ceilSqrtAux n (n + 1) 0

theorem ceilSqrtAux_sq_le (n : Nat) :
    ∀ fuel c, n ≤ (c + fuel) * (c + fuel) →
      n ≤ ceilSqrtAux n fuel c * ceilSqrtAux n fuel c := by
  intro fuel
  induction fuel with
  | zero => intro c h; simpa [ceilSqrtAux] using h
  | succ fuel ih =>
    intro c h
    by_cases hc : n ≤ c * c
    · simp [ceilSqrtAux, hc]
    · simp only [ceilSqrtAux, if_neg hc]
      have heq : c + 1 + fuel = c + (fuel + 1) := by omega
      exact ih (c + 1) (heq ▸ h)

theorem ceilSqrt_sq_le (n : Nat) : n ≤ ceilSqrt n * ceilSqrt n := by
  refine ceilSqrtAux_sq_le n (n + 1) 0 ?_
  simp only [Nat.zero_add]
  calc n ≤ n + 1 := Nat.le_succ n
    _ ≤ (n + 1) * (n + 1) := Nat.le_mul_of_pos_left _ (Nat.succ_pos n)

theorem ceilSqrtAux_min (n : Nat) :
    ∀ fuel c c0, c ≤ c0 → n ≤ c0 * c0 → ceilSqrtAux n fuel c ≤ c0 := by
  intro fuel
  induction fuel with
  | zero => intro c c0 hc _; simpa [ceilSqrtAux] using hc
  | succ fuel ih =>
    intro c c0 hc h0
    by_cases hcc : n ≤ c * c
    · simpa [ceilSqrtAux, hcc] using hc
    · simp only [ceilSqrtAux, if_neg hcc]
      refine ih (c + 1) c0 ?_ h0
      rcases Nat.lt_or_ge c c0 with h | h
      · omega
      · exfalso
        exact hcc (Nat.le_trans h0 (Nat.mul_le_mul h h))

/- `ceilSqrt n` is exactly the ceiling of the real square root: the least
`c` whose square dominates `n`. -/
theorem ceilSqrt_min (n c0 : Nat) (h : n ≤ c0 * c0) : ceilSqrt n ≤ c0 :=
  ceilSqrtAux_min n (n + 1) 0 c0 (Nat.zero_le c0) h

theorem one_le_ceilSqrt (n : Nat) (h : 1 ≤ n) : 1 ≤ ceilSqrt n := by
  by_contra hlt
  have h0 : ceilSqrt n = 0 := by omega
  have := ceilSqrt_sq_le n
  rw [h0] at this
  omega

/- `grid_width = math.ceil(math.sqrt(len(self.drivers)))`. -/
def gridWidth (n : Nat) : Nat := ceilSqrt n

/- ceil(n / gridWidth n). -/
def gridHeight (n : Nat) : Nat := (n + gridWidth n - 1) / gridWidth n

/- The display scale factor is a positive rational `sN / sD`
(`get_display_scaling` returns `dpi / 96`).  For nonnegative operands
Python `int(w / c / s)` is the floor of the exact quotient
`w / (c * s) = w * sD / (c * sN)`, which is natural-number division. -/

/- `int(monitor.width / grid_width / scaling)` with `scaling = sN / sD`. -/
def cellWidth (w : Nat) (n : Nat) (sN sD : Nat) : Nat :=
  w * sD / (gridWidth n * sN)

/- `int(monitor.height / grid_height / scaling)` with `scaling = sN / sD`. -/
def cellHeight (h : Nat) (n : Nat) (sN sD : Nat) : Nat :=
  h * sD / (gridHeight n * sN)

structure Cell where
  x : Nat
  y : Nat
  w : Nat
  h : Nat
  deriving DecidableEq, Repr

/- The placement computed by `set_driver_position` for driver `index` out
of `n` drivers on a `w × h` screen with display scaling `sN / sD`:
`x = (index % grid_width) * driver_width`,
`y = (index // grid_width) * driver_height`. -/
def layout (index n w h sN sD : Nat) : Cell :=
  { x := (index % gridWidth n) * cellWidth w n sN sD
    y := (index / gridWidth n) * cellHeight h n sN sD
    w := cellWidth w n sN sD
    h := cellHeight h n sN sD }

/- Membership of a screen pixel in a cell (half-open on the far edges). -/
def inCell (c : Cell) (px py : Nat) : Prop :=
  c.x ≤ px ∧ px < c.x + c.w ∧ c.y ≤ py ∧ py < c.y + c.h

instance (c : Cell) (px py : Nat) : Decidable (inCell c px py) := by
  unfold inCell; infer_instance

/-- C4 (counterexample): the claim asserts x = 640 at index 5,
totalCount 9, 1920×1080, scale 1.  The code computes
x = (5 % 3) * 640 = 1280, contradicting the claimed value 640. -/
theorem C4_counterexample : (layout 5 9 1920 1080 1 1).x = 1280 := by decide

/-- C4 (amended): layout(5, 9, 1920, 1080, 1.0) yields columns = 3,
rows = 3, cellWidth = 640, cellHeight = 360, y = 360, but x = 1280
(index 5 sits in column 5 mod 3 = 2), not 640. -/
theorem C4_amended :
    gridWidth 9 = 3 ∧ gridHeight 9 = 3 ∧
    layout 5 9 1920 1080 1 1 = ⟨1280, 360, 640, 360⟩ := by decide

/-! ### General grid properties (claim C3) -/

theorem grid_count_le (n : Nat) (h : 1 ≤ n) : n ≤ gridWidth n * gridHeight n := by
  have hc : 1 ≤ gridWidth n := one_le_ceilSqrt n h
  have hdm := Nat.div_add_mod (n + gridWidth n - 1) (gridWidth n)
  have hm : (n + gridWidth n - 1) % gridWidth n < gridWidth n :=
    Nat.mod_lt _ (by omega)
  unfold gridHeight
  generalize hC : gridWidth n = C at hc hdm hm ⊢
  generalize (n + C - 1) / C = q at hdm ⊢
  generalize (n + C - 1) % C = m at hdm hm
  generalize C * q = K at hdm ⊢
  omega

theorem div_mod_inj (c i j : Nat) (h1 : i % c = j % c) (h2 : i / c = j / c) :
    i = j := by
  have hi := Nat.div_add_mod i c
  have hj := Nat.div_add_mod j c
  rw [h1, h2] at hi
  exact hi.symm.trans hj

theorem interval_sep (a b wdt p : Nat) (hab : a < b)
    (h2 : p < a * wdt + wdt) (h3 : b * wdt ≤ p) : False := by
  have hstep : a * wdt + wdt ≤ b * wdt := by
    have hmul : (a + 1) * wdt ≤ b * wdt := Nat.mul_le_mul_right wdt (by omega)
    calc a * wdt + wdt = (a + 1) * wdt := by ring
      _ ≤ b * wdt := hmul
  exact Nat.lt_irrefl p (Nat.lt_of_lt_of_le (Nat.lt_of_lt_of_le h2 hstep) h3)

theorem layout_cells_disjoint (n w h sN sD i j px py : Nat) (hij : i ≠ j) :
    ¬ (inCell (layout i n w h sN sD) px py ∧
       inCell (layout j n w h sN sD) px py) := by
  intro hcon
  simp only [inCell, layout] at hcon
  obtain ⟨⟨hxi1, hxi2, hyi1, hyi2⟩, hxj1, hxj2, hyj1, hyj2⟩ := hcon
  have hsplit : i % gridWidth n ≠ j % gridWidth n ∨
      i / gridWidth n ≠ j / gridWidth n := by
    by_contra hcon2
    push_neg at hcon2
    exact hij (div_mod_inj (gridWidth n) i j hcon2.1 hcon2.2)
  rcases hsplit with hne | hne
  · rcases Nat.lt_or_gt_of_ne hne with hlt | hlt
    · exact interval_sep _ _ _ px hlt hxi2 hxj1
    · exact interval_sep _ _ _ px hlt hxj2 hxi1
  · rcases Nat.lt_or_gt_of_ne hne with hlt | hlt
    · exact interval_sep _ _ _ py hlt hyi2 hyj1
    · exact interval_sep _ _ _ py hlt hyj2 hyi1

/-- C3 (counterexample): at totalCount = 2 on a 1×1 screen with scale 1,
indices 0 and 1 receive the identical cell (0, 0, 0, 1) — the same
(x, y) — because the truncated cell width is 0; a zero-width cell also
contains no pixel, so the union cannot tile the 1×1 screen rectangle. -/
theorem C3_counterexample :
    layout 0 2 1 1 1 1 = ⟨0, 0, 0, 1⟩ ∧
    layout 1 2 1 1 1 1 = ⟨0, 0, 0, 1⟩ := by decide

/-- C3 (amended): for every totalCount ≥ 1 and all positive screen
dimensions and scale factor, columns * rows ≥ totalCount; distinct
indices receive distinct (column, row) grid coordinates; whenever the
truncated cell width and height are at least 1, distinct indices receive
distinct (x, y) positions; and no two assigned cells ever overlap.  The
union of the assigned cells does not in general cover the whole screen
rectangle. -/
theorem C3_amended (n w h sN sD i j : Nat) (hn : 1 ≤ n)
    (hi : i < n) (hj : j < n) (hij : i ≠ j) :
    n ≤ gridWidth n * gridHeight n ∧
    (i % gridWidth n, i / gridWidth n) ≠ (j % gridWidth n, j / gridWidth n) ∧
    (1 ≤ cellWidth w n sN sD → 1 ≤ cellHeight h n sN sD →
      ¬ ((layout i n w h sN sD).x = (layout j n w h sN sD).x ∧
         (layout i n w h sN sD).y = (layout j n w h sN sD).y)) ∧
    (∀ px py, ¬ (inCell (layout i n w h sN sD) px py ∧
                 inCell (layout j n w h sN sD) px py)) := by
  refine ⟨grid_count_le n hn, ?_, ?_, ?_⟩
  · intro hcon
    rw [Prod.mk.injEq] at hcon
    exact hij (div_mod_inj (gridWidth n) i j hcon.1 hcon.2)
  · intro hw hh hcon
    simp only [layout] at hcon
    obtain ⟨hx, hy⟩ := hcon
    have h1 : i % gridWidth n = j % gridWidth n :=
      Nat.eq_of_mul_eq_mul_right (by omega) hx
    have h2 : i / gridWidth n = j / gridWidth n :=
      Nat.eq_of_mul_eq_mul_right (by omega) hy
    exact hij (div_mod_inj (gridWidth n) i j h1 h2)
  · intro px py
    exact layout_cells_disjoint n w h sN sD i j px py hij

/-- C3 (witness): the amended grid theorem instantiated at
totalCount = 9, screen 1920×1080, scale 1, indices 5 and 7. -/
theorem C3_amended_witness :
    9 ≤ gridWidth 9 * gridHeight 9 ∧
    ¬ ((layout 5 9 1920 1080 1 1).x = (layout 7 9 1920 1080 1 1).x ∧
       (layout 5 9 1920 1080 1 1).y = (layout 7 9 1920 1080 1 1).y) ∧
    ¬ (inCell (layout 5 9 1920 1080 1 1) 700 400 ∧
       inCell (layout 7 9 1920 1080 1 1) 700 400) := by
  have hmain := C3_amended 9 1920 1080 1 1 5 7 (by decide) (by decide)
    (by decide) (by decide)
  exact ⟨hmain.1, hmain.2.2.1 (by decide) (by decide), hmain.2.2.2 700 400⟩

/-! ## Agent / Orchestrator state machine

One `Agent` record per `Glasto` driver (`url`, `searching`), extended
with the position of its `auto_run` thread (`phase`) and whether its
handle has been released (`handleTerminated`, set by the `self.quit()`
call after the run loop exits).  The `GlastoManager` state is `SysState`
(`stop_event`, `desired_page`, `drivers`, `update_queue`).  A concurrent
run is a fold of events over the state, one event per atomic action of
one thread. -/

inductive Phase
  | idle        -- constructed; auto_run not yet entered
  | loopHead    -- inside auto_run, at the while-condition check
  | terminated  -- auto_run exited, handle released
  deriving DecidableEq, Repr

structure Agent where
  url : Option Url
  searching : Bool
  phase : Phase
  handleTerminated : Bool
  deriving DecidableEq, Repr

structure SysState where
  stop : Bool
  desired : List (Url × Bool)
  agents : List Agent
  queue : List (Nat × String)
  deriving DecidableEq, Repr

/- Replace the agent at index `i` by `f` applied to it. -/
def modifyAgent (l : List Agent) (i : Nat) (f : Agent → Agent) : List Agent :=
  match l, i with
  | [], _ => []
  | a :: rest, 0 => f a :: rest
  | a :: rest, Nat.succ k => a :: modifyAgent rest k f

def searchingMsg (i : Nat) : String :=
  "Driver " ++ toString (i + 1) ++ " - searching"

def pausedMsg (i : Nat) : String :=
  "Driver " ++ toString (i + 1) ++ " - paused"

/- `Glasto.pause`: `self.searching = False`. -/
def pauseDriver (a : Agent) : Agent := { a with searching := false }

/- `Glasto.resume`: `self.searching = True`. -/
def resumeDriver (a : Agent) : Agent := { a with searching := true }

/- `GlastoManager.pause_searching`. -/
def pauseSearching (s : SysState) (i : Nat) : SysState :=
  { s with agents := modifyAgent s.agents i pauseDriver
           queue := s.queue ++ [(i, pausedMsg i)] }

/- `GlastoManager.resume_searching`. -/
def resumeSearching (s : SysState) (i : Nat) : SysState :=
  { s with agents := modifyAgent s.agents i resumeDriver
           queue := s.queue ++ [(i, searchingMsg i)] }

/- `GlastoManager.check_page`, with the reported current location `url`
of driver `i`: pause and mark the URL true unless the URL is present and
flagged false. -/
def checkPage (s : SysState) (i : Nat) (url : Url) : SysState :=
  match lookupD s.desired url with
  | some false => s
  | _ =>
    let s1 := pauseSearching s i
    { s1 with desired := insertD s1.desired url true }

/- `GlastoManager.quit`: sets the stop event, nothing else. -/
def quitManager (s : SysState) : SysState := { s with stop := true }

/- `GlastoGUI.update_checkboxes` writing the operator checkbox states
back into `manager.desired_page`: each displayed URL is re-assigned the
checked/unchecked value of its checkbox. -/
def guiSyncDesired (s : SysState) (chk : List (Url × Bool)) : SysState :=
  { s with desired := chk.foldl (fun m ub => insertD m ub.fst ub.snd) s.desired }

/- One atomic action of one thread. -/
inductive Event
  /- the pre-loop prefix of `Glasto.auto_run` for agent `i`:
  `self.get(self.url)`; `check_page` with reported location `loc`;
  `self.searching = True`; enter the while loop. -/
  | startAgent (i : Nat) (loc : Url)
  /- one while-loop pass of agent `i`: if the stop event is set, leave
  the loop and `self.quit()`; otherwise refresh/sleep/`check_page` with
  reported location `loc` when searching, or just sleep when paused. -/
  | loopStep (i : Nat) (loc : Url)
  | pauseCmd (i : Nat)
  | resumeCmd (i : Nat)
  | quitCmd
  | guiSync (chk : List (Url × Bool))
  deriving DecidableEq, Repr

/- `self.searching = True` followed by entering the while loop. -/
def enterLoop (b : Agent) : Agent :=
  { b with searching := true, phase := Phase.loopHead }

/- Leaving the while loop and running `self.quit()`. -/
def exitLoop (b : Agent) : Agent :=
  { b with phase := Phase.terminated, handleTerminated := true }

def step (s : SysState) (e : Event) : SysState :=
  match e with
  | .startAgent i loc =>
    match s.agents[i]? with
    | some a =>
      if a.phase = Phase.idle then
        let s1 := checkPage s i loc
        { s1 with agents := modifyAgent s1.agents i enterLoop }
      else s
    | none => s
  | .loopStep i loc =>
    match s.agents[i]? with
    | some a =>
      if a.phase = Phase.loopHead then
        if s.stop then
          { s with agents := modifyAgent s.agents i exitLoop }
        else if a.searching then checkPage s i loc
        else s
      else s
    | none => s
  | .pauseCmd i => pauseSearching s i
  | .resumeCmd i => resumeSearching s i
  | .quitCmd => quitManager s
  | .guiSync chk => guiSyncDesired s chk

def run (s : SysState) (es : List Event) : SysState := es.foldl step s

/- The state after `GlastoManager.__init__` (with `n` successfully
constructed drivers) followed by `start(url, _)` setting each driver's
entry URL, before any `auto_run` thread has acted. -/
def initAgent (entry : Url) : Agent :=
  { url := some entry, searching := false, phase := Phase.idle
    handleTerminated := false }

def initState (n : Nat) (entry : Url) : SysState :=
  { stop := false, desired := [], agents := List.replicate n (initAgent entry)
    queue := [] }

/- The searching flag of agent `i` (false when out of range). -/
def searchingAt (s : SysState) (i : Nat) : Bool :=
  match s.agents[i]? with
  | some a => a.searching
  | none => false

/-! ### Indexing lemmas for the agent list -/

theorem modifyAgent_getElem? (l : List Agent) (i j : Nat) (f : Agent → Agent) :
    (modifyAgent l i f)[j]? = if j = i then Option.map f l[j]? else l[j]? := by
  induction l generalizing i j with
  | nil => simp [modifyAgent]
  | cons a rest ih =>
    cases i with
    | zero =>
      cases j with
      | zero => simp [modifyAgent]
      | succ k => simp [modifyAgent]
    | succ m =>
      cases j with
      | zero => simp [modifyAgent]
      | succ k => simpa [modifyAgent, Nat.succ_inj] using ih m k

theorem modifyAgent_length (l : List Agent) (i : Nat) (f : Agent → Agent) :
    (modifyAgent l i f).length = l.length := by
  induction l generalizing i with
  | nil => simp [modifyAgent]
  | cons a rest ih =>
    cases i with
    | zero => simp [modifyAgent]
    | succ m => simp [modifyAgent, ih]

theorem pauseSearching_desired (s : SysState) (i : Nat) :
    (pauseSearching s i).desired = s.desired := rfl

theorem resumeSearching_desired (s : SysState) (i : Nat) :
    (resumeSearching s i).desired = s.desired := rfl

theorem checkPage_stop (s : SysState) (i : Nat) (u : Url) :
    (checkPage s i u).stop = s.stop := by
  unfold checkPage
  cases lookupD s.desired u with
  | none => rfl
  | some b => cases b <;> rfl

theorem checkPage_agents_getElem? (s : SysState) (i : Nat) (u : Url) (j : Nat) :
    (checkPage s i u).agents[j]? = s.agents[j]? ∨
    (checkPage s i u).agents[j]? = Option.map pauseDriver s.agents[j]? := by
  unfold checkPage
  cases lookupD s.desired u with
  | none =>
    simp only [pauseSearching, modifyAgent_getElem?]
    by_cases hj : j = i <;> simp [hj]
  | some b =>
    cases b
    · left; rfl
    · simp only [pauseSearching, modifyAgent_getElem?]
      by_cases hj : j = i <;> simp [hj]

/-! ### Claim C9: pause then resume -/

/-- C9: for every in-range agent index i, pause(i) followed by resume(i)
leaves agent i searching, restores every other field of agent i, leaves
every other agent, the desired-page table and the stop flag untouched,
and enqueues exactly the two status messages for index i. -/
theorem C9_pause_then_resume (s : SysState) (i : Nat)
    (hi : i < s.agents.length) :
    searchingAt (step (step s (Event.pauseCmd i)) (Event.resumeCmd i)) i = true ∧
    (∀ j, j ≠ i →
      (step (step s (Event.pauseCmd i)) (Event.resumeCmd i)).agents[j]? =
        s.agents[j]?) ∧
    (∀ a, s.agents[i]? = some a →
      (step (step s (Event.pauseCmd i)) (Event.resumeCmd i)).agents[i]? =
        some { a with searching := true }) ∧
    (step (step s (Event.pauseCmd i)) (Event.resumeCmd i)).desired = s.desired ∧
    (step (step s (Event.pauseCmd i)) (Event.resumeCmd i)).stop = s.stop ∧
    (step (step s (Event.pauseCmd i)) (Event.resumeCmd i)).queue =
      s.queue ++ [(i, pausedMsg i), (i, searchingMsg i)] := by
  have hex : ∃ a, s.agents[i]? = some a := by
    cases ha : s.agents[i]? with
    | none => exact absurd (List.getElem?_eq_none_iff.mp ha) (by omega)
    | some a => exact ⟨a, rfl⟩
  obtain ⟨a, ha⟩ := hex
  refine ⟨?_, ?_, ?_, rfl, rfl, by simp [step, resumeSearching, pauseSearching]⟩
  · simp [searchingAt, step, resumeSearching, pauseSearching,
      modifyAgent_getElem?, ha, resumeDriver]
  · intro j hj
    simp [step, resumeSearching, pauseSearching, modifyAgent_getElem?, hj]
  · intro a0 ha0
    rw [ha0] at ha
    cases ha
    simp [step, resumeSearching, pauseSearching, modifyAgent_getElem?, ha0,
      resumeDriver, pauseDriver]

/-- C9 (witness): pause(0) then resume(0) on a two-agent state. -/
theorem C9_pause_then_resume_witness :
    0 < (initState 2 "https://example.test/").agents.length ∧
    searchingAt (step (step (initState 2 "https://example.test/")
      (Event.pauseCmd 0)) (Event.resumeCmd 0)) 0 = true ∧
    (step (step (initState 2 "https://example.test/")
      (Event.pauseCmd 0)) (Event.resumeCmd 0)).agents[1]? =
      (initState 2 "https://example.test/").agents[1]? := by
  have h := C9_pause_then_resume (initState 2 "https://example.test/") 0
    (by decide)
  exact ⟨by decide, h.1, h.2.1 1 (by decide)⟩

/-! ### desired-page table lemmas -/

theorem lookupD_checkPage_self (s : SysState) (i : Nat) (u : Url)
    (hd : lookupD s.desired u ≠ some false) :
    lookupD (checkPage s i u).desired u = some true := by
  cases hl : lookupD s.desired u with
  | none => simp [checkPage, hl, lookupD_insertD]
  | some b =>
    cases b
    · exact absurd hl hd
    · simp [checkPage, hl, lookupD_insertD]

theorem lookupD_checkPage_true (s : SysState) (i : Nat) (url u : Url)
    (h : lookupD s.desired u = some true) :
    lookupD (checkPage s i url).desired u = some true := by
  cases hl : lookupD s.desired url with
  | none =>
    simp only [checkPage, hl, pauseSearching, lookupD_insertD]
    by_cases hu : url = u <;> simp [hu, h]
  | some b =>
    cases b
    · simpa [checkPage, hl] using h
    · simp only [checkPage, hl, pauseSearching, lookupD_insertD]
      by_cases hu : url = u <;> simp [hu, h]

/-! ### Claim C10: the pre-loop prefix of auto_run -/

/-- C10: when an agent whose entry URL is u starts auto_run and its
initial check_page report (location = entry URL) finds u unseen or
flagged true, the report marks u true; and the agent then sets
searching = true unconditionally, entering the polling loop in the
Searching state whatever URL the initial report carried. -/
theorem C10_autorun_entry (s : SysState) (i : Nat) (u : Url) (a : Agent)
    (ha : s.agents[i]? = some a) (hph : a.phase = Phase.idle)
    (hu : a.url = some u)
    (hd : lookupD s.desired u = none ∨ lookupD s.desired u = some true) :
    lookupD (step s (Event.startAgent i u)).desired u = some true ∧
    (∀ loc, ∃ b, (step s (Event.startAgent i loc)).agents[i]? = some b ∧
       b.searching = true ∧ b.phase = Phase.loopHead) := by
  have key : ∀ loc, ∃ b, (step s (Event.startAgent i loc)).agents[i]? = some b ∧
      b.searching = true ∧ b.phase = Phase.loopHead := by
    intro loc
    have hagents : (step s (Event.startAgent i loc)).agents[i]? =
        Option.map enterLoop (checkPage s i loc).agents[i]? := by
      simp [step, ha, hph, modifyAgent_getElem?]
    rcases checkPage_agents_getElem? s i loc i with hc | hc
    · rw [hagents, hc, ha]
      exact ⟨enterLoop a, rfl, rfl, rfl⟩
    · rw [hagents, hc, ha]
      exact ⟨enterLoop (pauseDriver a), rfl, rfl, rfl⟩
  refine ⟨?_, key⟩
  have hdes : (step s (Event.startAgent i u)).desired = (checkPage s i u).desired := by
    simp [step, ha, hph]
  rw [hdes]
  apply lookupD_checkPage_self
  rcases hd with hd | hd <;> simp [hd]

/-- C10 (witness): a fresh single-agent state entering auto_run. -/
theorem C10_autorun_entry_witness :
    lookupD (step (initState 1 "https://example.test/")
      (Event.startAgent 0 "https://example.test/")).desired
      "https://example.test/" = some true ∧
    (∃ b, (step (initState 1 "https://example.test/")
      (Event.startAgent 0 "https://example.test/")).agents[0]? = some b ∧
      b.searching = true ∧ b.phase = Phase.loopHead) := by
  have h := C10_autorun_entry (initState 1 "https://example.test/") 0
    "https://example.test/" (initAgent "https://example.test/")
    (by decide) rfl rfl (Or.inl (by decide))
  exact ⟨h.1, h.2 "https://example.test/"⟩

/-! ### Claim C1: stickiness of the desired-page table -/

/- An event cannot write false into key u unless it is a GUI checkbox
sync in which the operator left u unchecked. -/
def preservesTrue (e : Event) (u : Url) : Prop :=
  match e with
  | .guiSync chk => ∀ p ∈ chk, p.fst = u → p.snd = true
  | _ => True

theorem guiFold_preserves_true (chk : List (Url × Bool)) :
    ∀ (m : List (Url × Bool)) (u : Url), lookupD m u = some true →
    (∀ p ∈ chk, p.fst = u → p.snd = true) →
    lookupD (chk.foldl (fun m ub => insertD m ub.fst ub.snd) m) u = some true := by
  induction chk with
  | nil => intro m u h _; simpa using h
  | cons p rest ih =>
    intro m u h hchk
    simp only [List.foldl_cons]
    apply ih
    · rw [lookupD_insertD]
      by_cases hp : p.fst = u
      · rw [if_pos hp, hchk p (List.mem_cons_self p rest) hp]
      · rw [if_neg hp]; exact h
    · intro q hq hqu
      exact hchk q (List.mem_cons_of_mem _ hq) hqu

theorem step_preserves_desired_true (s : SysState) (e : Event) (u : Url)
    (hp : preservesTrue e u) (h : lookupD s.desired u = some true) :
    lookupD (step s e).desired u = some true := by
  cases e with
  | startAgent i loc =>
    cases ha : s.agents[i]? with
    | none => simpa [step, ha] using h
    | some a =>
      by_cases hph : a.phase = Phase.idle
      · have hdes : (step s (Event.startAgent i loc)).desired =
            (checkPage s i loc).desired := by simp [step, ha, hph]
        rw [hdes]
        exact lookupD_checkPage_true s i loc u h
      · simpa [step, ha, hph] using h
  | loopStep i loc =>
    cases ha : s.agents[i]? with
    | none => simpa [step, ha] using h
    | some a =>
      by_cases hph : a.phase = Phase.loopHead
      · by_cases hstop : s.stop = true
        · simpa [step, ha, hph, hstop] using h
        · by_cases hsrch : a.searching = true
          · have hdes : (step s (Event.loopStep i loc)).desired =
                (checkPage s i loc).desired := by
              simp [step, ha, hph, hstop, hsrch]
            rw [hdes]
            exact lookupD_checkPage_true s i loc u h
          · simpa [step, ha, hph, hstop, hsrch] using h
      · simpa [step, ha, hph] using h
  | pauseCmd i => simpa [step, pauseSearching] using h
  | resumeCmd i => simpa [step, resumeSearching] using h
  | quitCmd => simpa [step, quitManager] using h
  | guiSync chk => exact guiFold_preserves_true chk s.desired u h hp

theorem checkPage_pauses_on_true (s : SysState) (i : Nat) (u : Url)
    (hi : i < s.agents.length) (h : lookupD s.desired u = some true) :
    searchingAt (checkPage s i u) i = false ∧
    lookupD (checkPage s i u).desired u = some true := by
  constructor
  · have hex : ∃ a, s.agents[i]? = some a := by
      cases ha : s.agents[i]? with
      | none => exact absurd (List.getElem?_eq_none_iff.mp ha) (by omega)
      | some a => exact ⟨a, rfl⟩
    obtain ⟨a, ha⟩ := hex
    simp [checkPage, h, searchingAt, pauseSearching, modifyAgent_getElem?, ha,
      pauseDriver]
  · exact lookupD_checkPage_true s i u u h

/-- C1 (counterexample): agent 0's initial check_page marks the entry
URL true, yet a subsequent GUI checkbox sync in which the operator has
unchecked that URL resets the entry to false — the entry is not sticky
for the rest of the run. -/
theorem C1_counterexample :
    lookupD (run (initState 1 "https://example.test/")
      [Event.startAgent 0 "https://example.test/"]).desired
      "https://example.test/" = some true ∧
    lookupD (run (initState 1 "https://example.test/")
      [Event.startAgent 0 "https://example.test/",
       Event.guiSync [("https://example.test/", false)]]).desired
      "https://example.test/" = some false := by decide

/-- C1 (amended): once desiredPageState[u] is true it stays true under
every manager-side event (checkPage in either loop position, pause,
resume, quit) and under any GUI checkbox sync whose checkbox for u is
still checked — only an operator unchecking u can unset it; and while
the entry is true, every checkPage call reporting u pauses the
reporting agent and leaves the entry true. -/
theorem C1_amended :
    (∀ s e u, preservesTrue e u → lookupD s.desired u = some true →
       lookupD (step s e).desired u = some true) ∧
    (∀ s i u, i < s.agents.length → lookupD s.desired u = some true →
       searchingAt (checkPage s i u) i = false ∧
       lookupD (checkPage s i u).desired u = some true) :=
  ⟨step_preserves_desired_true, checkPage_pauses_on_true⟩

/- A one-agent state whose desired-page table already flags "u". -/
def c1DemoState : SysState :=
  { stop := false, desired := [("u", true)], agents := [initAgent "u"]
    queue := [] }

/-- C1 (witness): the amended statement applied to a concrete state with
desiredPageState["u"] = true, under a quit event and a checkPage call. -/
theorem C1_amended_witness :
    lookupD (step c1DemoState Event.quitCmd).desired "u" = some true ∧
    searchingAt (checkPage c1DemoState 0 "u") 0 = false :=
  ⟨C1_amended.1 c1DemoState Event.quitCmd "u" trivial (by decide),
   (C1_amended.2 c1DemoState 0 "u" (by decide) (by decide)).1⟩

/-! ### Claim C2: the four-agent queue scenario -/

def baseUrl : Url := "https://example.test/"

def queueUrl : Url := "https://example.test/queue"

/- launch(4); start(baseUrl, 1s); cycle 1 = the four initial auto_run
reports, every agent at baseUrl; cycle 2 = the first while-loop pass,
agent 0 now at queueUrl, agents 1-3 still at baseUrl. -/
def scenarioEvents : List Event :=
  [Event.startAgent 0 baseUrl, Event.startAgent 1 baseUrl,
   Event.startAgent 2 baseUrl, Event.startAgent 3 baseUrl,
   Event.loopStep 0 queueUrl, Event.loopStep 1 baseUrl,
   Event.loopStep 2 baseUrl, Event.loopStep 3 baseUrl]

def scenarioFinal : SysState := run (initState 4 baseUrl) scenarioEvents

/-- C2 (counterexample): in the four-agent scenario the claim's queue
and agent-0 conclusions hold, but agent 1 — which the claim says is
still Searching — is paused after cycle 2, because cycle 1 flagged the
base URL true and every cycle-2 report of it pauses the reporter. -/
theorem C2_counterexample :
    lookupD scenarioFinal.desired queueUrl = some true ∧
    searchingAt scenarioFinal 0 = false ∧
    searchingAt scenarioFinal 1 = false := by decide

/-- C2 (amended): after cycle 2, desiredPageState[queueUrl] is true and
agent 0 is Paused — and agents 1, 2, 3 are also Paused, since the entry
URL was flagged true by the cycle-1 reports and check_page pauses every
agent that reports a URL flagged true. -/
theorem C2_amended :
    lookupD scenarioFinal.desired queueUrl = some true ∧
    lookupD scenarioFinal.desired baseUrl = some true ∧
    searchingAt scenarioFinal 0 = false ∧
    searchingAt scenarioFinal 1 = false ∧
    searchingAt scenarioFinal 2 = false ∧
    searchingAt scenarioFinal 3 = false := by decide

/-! ### Claim C5: quit and shutdown -/

/- No agent of `s` is still before its auto_run prefix. -/
def noIdle (s : SysState) : Prop := ∀ a ∈ s.agents, a.phase ≠ Phase.idle

instance (s : SysState) : Decidable (noIdle s) := by
  unfold noIdle; infer_instance

/- The loop of agent `j` has exited. -/
def done (s : SysState) (j : Nat) : Prop :=
  ∀ a, s.agents[j]? = some a → a.phase = Phase.terminated

theorem step_stop_mono (s : SysState) (e : Event) (h : s.stop = true) :
    (step s e).stop = true := by
  cases e with
  | startAgent i loc =>
    cases ha : s.agents[i]? with
    | none => simpa [step, ha] using h
    | some a =>
      by_cases hph : a.phase = Phase.idle
      · have : (step s (Event.startAgent i loc)).stop = (checkPage s i loc).stop := by
          simp [step, ha, hph]
        rw [this, checkPage_stop]; exact h
      · simpa [step, ha, hph] using h
  | loopStep i loc =>
    cases ha : s.agents[i]? with
    | none => simpa [step, ha] using h
    | some a =>
      by_cases hph : a.phase = Phase.loopHead
      · simpa [step, ha, hph, h] using h
      · simpa [step, ha, hph] using h
  | pauseCmd i => simpa [step, pauseSearching] using h
  | resumeCmd i => simpa [step, resumeSearching] using h
  | quitCmd => rfl
  | guiSync chk => simpa [step, guiSyncDesired] using h

theorem loopStep_agents_cases (s : SysState) (k : Nat) (loc : Url) (j : Nat) :
    (step s (Event.loopStep k loc)).agents[j]? = s.agents[j]? ∨
    (∃ a, s.agents[j]? = some a ∧
       (step s (Event.loopStep k loc)).agents[j]? = some (exitLoop a)) ∨
    (∃ a, s.agents[j]? = some a ∧
       (step s (Event.loopStep k loc)).agents[j]? = some (pauseDriver a)) := by
  cases ha : s.agents[k]? with
  | none => left; simp [step, ha]
  | some a =>
    by_cases hph : a.phase = Phase.loopHead
    · by_cases hstop : s.stop = true
      · by_cases hj : j = k
        · subst hj
          right; left
          exact ⟨a, ha, by simp [step, ha, hph, hstop, modifyAgent_getElem?]⟩
        · left; simp [step, ha, hph, hstop, modifyAgent_getElem?, hj]
      · by_cases hsrch : a.searching = true
        · have hstep : (step s (Event.loopStep k loc)).agents =
              (checkPage s k loc).agents := by
            simp [step, ha, hph, hstop, hsrch]
          rcases checkPage_agents_getElem? s k loc j with hc | hc
          · left; rw [hstep]; exact hc
          · cases haj : s.agents[j]? with
            | none => left; rw [hstep, hc, haj]; rfl
            | some b =>
              right; right
              exact ⟨b, rfl, by rw [hstep, hc, haj]; rfl⟩
        · left; simp [step, ha, hph, hstop, hsrch]
    · left; simp [step, ha, hph]

theorem loopStep_preserves_noIdle (s : SysState) (k : Nat) (loc : Url)
    (h : noIdle s) : noIdle (step s (Event.loopStep k loc)) := by
  intro a ha
  obtain ⟨j, hjl, hje⟩ := List.getElem_of_mem ha
  have hja : (step s (Event.loopStep k loc)).agents[j]? = some a := by
    rw [List.getElem?_eq_getElem hjl, hje]
  rcases loopStep_agents_cases s k loc j with hc | ⟨b, hb, hc⟩ | ⟨b, hb, hc⟩
  · rw [hc] at hja
    exact h a (List.getElem?_mem hja)
  · rw [hc] at hja
    cases hja
    simp [exitLoop]
  · rw [hc] at hja
    cases hja
    have := h b (List.getElem?_mem hb)
    simpa [pauseDriver] using this

theorem loopStep_done_self (s : SysState) (k : Nat) (loc : Url)
    (hstop : s.stop = true) (hni : noIdle s) :
    done (step s (Event.loopStep k loc)) k := by
  cases ha : s.agents[k]? with
  | none =>
    intro a hcon
    rw [show (step s (Event.loopStep k loc)) = s by simp [step, ha], ha] at hcon
    cases hcon
  | some a =>
    have hnotidle : a.phase ≠ Phase.idle := hni a (List.getElem?_mem ha)
    cases hphase : a.phase with
    | idle => exact absurd hphase hnotidle
    | loopHead =>
      intro b hb
      rw [show (step s (Event.loopStep k loc)).agents[k]? = some (exitLoop a) by
        simp [step, ha, hphase, hstop, modifyAgent_getElem?]] at hb
      cases hb
      rfl
    | terminated =>
      intro b hb
      rw [show (step s (Event.loopStep k loc)) = s by simp [step, ha, hphase],
        ha] at hb
      cases hb
      exact hphase

theorem loopStep_done_stable (s : SysState) (k : Nat) (loc : Url) (j : Nat)
    (hd : done s j) : done (step s (Event.loopStep k loc)) j := by
  intro a ha
  rcases loopStep_agents_cases s k loc j with hc | ⟨b, hb, hc⟩ | ⟨b, hb, hc⟩
  · rw [hc] at ha; exact hd a ha
  · rw [hc] at ha; cases ha; rfl
  · rw [hc] at ha
    cases ha
    have := hd b hb
    simpa [pauseDriver] using this

theorem run_loopSteps_done_stable (ks : List Nat) :
    ∀ (s : SysState) (loc : Url) (j : Nat), done s j →
      done (run s (ks.map fun k => Event.loopStep k loc)) j := by
  induction ks with
  | nil => intro s loc j hd; exact hd
  | cons k ks ih =>
    intro s loc j hd
    exact ih (step s (Event.loopStep k loc)) loc j
      (loopStep_done_stable s k loc j hd)

theorem run_sweep_done (ks : List Nat) :
    ∀ (s : SysState) (loc : Url), s.stop = true → noIdle s →
      ∀ j ∈ ks, done (run s (ks.map fun k => Event.loopStep k loc)) j := by
  induction ks with
  | nil => intro s loc _ _ j hj; cases hj
  | cons k ks ih =>
    intro s loc hstop hni j hj
    have hstop1 : (step s (Event.loopStep k loc)).stop = true :=
      step_stop_mono s _ hstop
    have hni1 : noIdle (step s (Event.loopStep k loc)) :=
      loopStep_preserves_noIdle s k loc hni
    rcases List.mem_cons.mp hj with hj | hj
    · subst hj
      exact run_loopSteps_done_stable ks (step s (Event.loopStep j loc)) loc j
        (loopStep_done_self s j loc hstop hni)
    · exact ih (step s (Event.loopStep k loc)) loc hstop1 hni1 j hj

/- One cooperative-shutdown pass: each agent index takes one loop step. -/
def loopSweep (n : Nat) (loc : Url) : List Event :=
  (List.range n).map (fun k => Event.loopStep k loc)

/-- C5: quit() only sets the stop signal (one non-blocking assignment);
the signal is monotone — no event ever unsets it; once it is set, a loop
step neither reloads nor reports (desired table and status queue are
untouched) and an agent at its loop head exits by terminating its own
handle; and after every agent has taken one post-quit loop step, no loop
remains in the Searching or Paused state. -/
theorem C5_quit_shutdown :
    (∀ s, step s Event.quitCmd = { s with stop := true }) ∧
    (∀ s e, s.stop = true → (step s e).stop = true) ∧
    (∀ s i loc, s.stop = true →
       (step s (Event.loopStep i loc)).desired = s.desired ∧
       (step s (Event.loopStep i loc)).queue = s.queue ∧
       (∀ a, s.agents[i]? = some a → a.phase = Phase.loopHead →
          ∃ b, (step s (Event.loopStep i loc)).agents[i]? = some b ∧
            b.phase = Phase.terminated ∧ b.handleTerminated = true ∧
            b.searching = a.searching ∧ b.url = a.url)) ∧
    (∀ s loc, s.stop = true → noIdle s →
       ∀ j, j < s.agents.length →
         done (run s (loopSweep s.agents.length loc)) j) := by
  refine ⟨fun s => rfl, step_stop_mono, ?_, ?_⟩
  · intro s i loc hstop
    refine ⟨?_, ?_, ?_⟩
    · cases ha : s.agents[i]? with
      | none => simp [step, ha]
      | some a =>
        by_cases hph : a.phase = Phase.loopHead
        · simp [step, ha, hph, hstop]
        · simp [step, ha, hph]
    · cases ha : s.agents[i]? with
      | none => simp [step, ha]
      | some a =>
        by_cases hph : a.phase = Phase.loopHead
        · simp [step, ha, hph, hstop]
        · simp [step, ha, hph]
    · intro a ha hph
      refine ⟨exitLoop a, ?_, rfl, rfl, rfl, rfl⟩
      simp [step, ha, hph, hstop, modifyAgent_getElem?]
  · intro s loc hstop hni j hj
    exact run_sweep_done (List.range s.agents.length) s loc hstop hni j
      (List.mem_range.mpr hj)

/- A stopped single-agent state parked at its loop head. -/
def c5DemoState : SysState :=
  { stop := true, desired := []
    agents := [{ url := some "u", searching := false, phase := Phase.loopHead
                 handleTerminated := false }]
    queue := [] }

/-- C5 (witness): the shutdown theorem applied to a stopped one-agent
state: the post-quit loop step leaves the desired table alone and the
sweep terminates agent 0. -/
theorem C5_quit_shutdown_witness :
    (step c5DemoState (Event.loopStep 0 "u")).desired = c5DemoState.desired ∧
    done (run c5DemoState (loopSweep c5DemoState.agents.length "u")) 0 :=
  ⟨(C5_quit_shutdown.2.2.1 c5DemoState 0 "u" rfl).1,
   C5_quit_shutdown.2.2.2 c5DemoState "u" rfl (by decide) 0 (by decide)⟩

/-! ## Bounded Task Pool (threaded_execution)

`threaded_execution` submits `function` once per element of `elements`
to a pool, waits for all futures on exiting the `with` block, then walks
the futures logging `future.exception()` per failed task.  A task's
outcome is `Except ε Unit`; the record of dispatched tasks with their
outcomes is returned, and no outcome escapes as an exception. -/

def threadedExecution {α ε : Type} (elements : List α)
    (f : α → Except ε Unit) : List (α × Except ε Unit) :=
  elements.map (fun e => (e, f e))

/- The per-task error log written after the pool completes. -/
def failureLog {α ε : Type} (rs : List (α × Except ε Unit)) : List (α × ε) :=
  rs.filterMap (fun r => match r.2 with
    | Except.error e => some (r.1, e)
    | Except.ok _ => none)

/-- C6: the pool invokes the function exactly once per input (the task
record lists exactly the inputs, in dispatch order) and only returns
once every task carries its final outcome; each task's outcome depends
only on its own input, so one task's failure never cancels, blocks or
alters another; a failing task is logged individually with its input's
identity, and no failure propagates to the caller (the pool's result
type carries no exception). -/
theorem C6_pool_contract {α ε : Type} (es : List α) (f : α → Except ε Unit) :
    (threadedExecution es f).map Prod.fst = es ∧
    (threadedExecution es f).length = es.length ∧
    (∀ (k : Nat) (x : α), es[k]? = some x →
       (threadedExecution es f)[k]? = some (x, f x)) ∧
    (∀ (k : Nat) (x : α) (e0 : ε), es[k]? = some x → f x = Except.error e0 →
       (x, e0) ∈ failureLog (threadedExecution es f)) := by
  refine ⟨?_, by simp [threadedExecution], ?_, ?_⟩
  · induction es with
    | nil => rfl
    | cons a l ih => simpa [threadedExecution] using ih
  · intro k x hk
    simp [threadedExecution, List.getElem?_map, hk]
  · intro k x e0 hk hf
    have hmem : (x, f x) ∈ threadedExecution es f := by
      have : (threadedExecution es f)[k]? = some (x, f x) := by
        simp [threadedExecution, List.getElem?_map, hk]
      exact List.getElem?_mem this
    rw [hf] at hmem
    exact List.mem_filterMap.mpr ⟨(x, Except.error e0), hmem, rfl⟩

/- A stub task that fails on input 2 only. -/
def fStub : Nat → Except String Unit :=
  fun n => if n = 2 then Except.error "boom" else Except.ok ()

/-- C6 (witness): the pool contract on inputs [1, 2, 3] with a stub that
fails on 2: input 3 still gets its own successful outcome and the
failure of 2 is individually logged. -/
theorem C6_pool_contract_witness :
    (threadedExecution [1, 2, 3] fStub).map Prod.fst = [1, 2, 3] ∧
    (threadedExecution [1, 2, 3] fStub)[2]? = some (3, fStub 3) ∧
    (2, "boom") ∈ failureLog (threadedExecution [1, 2, 3] fStub) := by
  have h := C6_pool_contract [1, 2, 3] fStub
  exact ⟨h.1, h.2.2.1 2 3 rfl, h.2.2.2 1 2 "boom" rfl rfl⟩

/-! ## Claim C7: agent construction with one failing constructor

`GlastoManager.__init__` runs
`threaded_execution(range(driver_count), lambda x: self.drivers.append(Glasto(...)))`:
each task constructs one driver and appends it to the shared list, so a
task whose constructor raises appends nothing, and the exception is
swallowed and logged by the pool.  The stateful fold mirrors the
append-on-success effect of the task bodies. -/

def threadedExecutionSt {σ α ε : Type} (elements : List α)
    (f : σ → α → Except ε σ) (init : σ) : σ × List (α × Option ε) :=
  elements.foldl (fun acc e =>
    match f acc.1 e with
    | Except.ok st => (st, acc.2 ++ [(e, none)])
    | Except.error err => (acc.1, acc.2 ++ [(e, some err)])) (init, [])

/- `self.drivers` after `__init__` with constructor `mk` for each index,
next to the per-task log. -/
def launchDrivers {δ ε : Type} (count : Nat) (mk : Nat → Except ε δ) :
    List δ × List (Nat × Option ε) :=
  threadedExecutionSt (List.range count)
    (fun ds i => (mk i).map (fun d => ds ++ [d])) []

/-- C7: constructing 3 agents where exactly the middle constructor
raises yields a fleet of size 2 holding only the two agents whose
construction succeeded; the failure is recorded in the pool's log and
never propagates to the caller (the constructor total-returns a state,
not an exception). -/
theorem C7_construction_isolated {δ ε : Type} (mk : Nat → Except ε δ)
    (d0 d2 : δ) (e1 : ε) (h0 : mk 0 = Except.ok d0)
    (h1 : mk 1 = Except.error e1) (h2 : mk 2 = Except.ok d2) :
    (launchDrivers 3 mk).1 = [d0, d2] ∧
    (launchDrivers 3 mk).1.length = 2 ∧
    (launchDrivers 3 mk).2 = [(0, none), (1, some e1), (2, none)] := by
  have hr : List.range 3 = [0, 1, 2] := rfl
  refine ⟨?_, ?_, ?_⟩ <;>
    simp [launchDrivers, threadedExecutionSt, hr, h0, h1, h2, Except.map]

/- A stub constructor that raises at index 1 only. -/
def mkStub : Nat → Except String Nat :=
  fun i => if i = 1 then Except.error "crash" else Except.ok (i * 10)

/-- C7 (witness): three requested agents, stub constructor raising at
index 1: the fleet is [0, 20] of size 2. -/
theorem C7_construction_isolated_witness :
    (launchDrivers 3 mkStub).1 = [0, 20] ∧
    (launchDrivers 3 mkStub).1.length = 2 :=
  ⟨(C7_construction_isolated mkStub 0 20 "crash" rfl rfl rfl).1,
   (C7_construction_isolated mkStub 0 20 "crash" rfl rfl rfl).2.1⟩

/-! ## Claim C8: current-location read failures

`check_page` reads `driver.current_url` with no try/except, so a raise
there propagates out of `check_page` (and out of the `auto_run` loop
that called it).  Only `GlastoGUI.monitor_urls` wraps the read, catching
`AttributeError` alone and substituting the string "None". -/

inductive PyErr
  | attributeError
  | webDriverError (msg : String)
  deriving DecidableEq, Repr

/- The `try: url = driver.current_url except AttributeError: url = "None"`
read in `monitor_urls`. -/
def monitorReadUrl (res : Except PyErr Url) : Except PyErr Url :=
  match res with
  | Except.ok u => Except.ok u
  | Except.error PyErr.attributeError => Except.ok "None"
  | Except.error e => Except.error e

/- `check_page` when the `driver.current_url` read itself can raise. -/
def checkPageFallible (s : SysState) (i : Nat) (read : Except PyErr Url) :
    Except PyErr SysState :=
  match read with
  | Except.error e => Except.error e
  | Except.ok u => Except.ok (checkPage s i u)

/-- C8 (counterexample): a failing current-location read inside
check_page propagates (it is fatal to the agent loop that observed it),
and the monitor loop substitutes the sentinel "None" — not "unknown" —
and only for AttributeError; so the claim's never-fatal /
"unknown"-sentinel behavior does not hold. -/
theorem C8_counterexample :
    checkPageFallible (initState 1 "https://example.test/") 0
      (Except.error PyErr.attributeError) =
        Except.error PyErr.attributeError ∧
    monitorReadUrl (Except.error PyErr.attributeError) = Except.ok "None" := by
  exact ⟨rfl, rfl⟩

/-- C8 (amended): in the GUI monitor loop an AttributeError from the
current-location query is replaced by the sentinel string "None"
(without logging) and the loop continues, while any other read failure
propagates out of the monitor loop; in the agent run loop, a failing
read inside check_page is not caught at all and is fatal to that
agent's loop. -/
theorem C8_amended :
    monitorReadUrl (Except.error PyErr.attributeError) = Except.ok "None" ∧
    (∀ u, monitorReadUrl (Except.ok u) = Except.ok u) ∧
    (∀ msg, monitorReadUrl (Except.error (PyErr.webDriverError msg)) =
       Except.error (PyErr.webDriverError msg)) ∧
    (∀ s i e, checkPageFallible s i (Except.error e) = Except.error e) ∧
    (∀ s i u, checkPageFallible s i (Except.ok u) =
       Except.ok (checkPage s i u)) :=
  ⟨rfl, fun _ => rfl, fun _ => rfl, fun _ _ _ => rfl, fun _ _ _ => rfl⟩
